import Mathlib

/-!
# Verification of the katalog upload-portal model pipeline

Shallow embedding of the canonical model pipeline of the upload portal
(`UploadPortal` component): bounding boxes, load-time normalization
(centering, ground-snap, preview scaling), the interactive transform
session's drag-end / manual-override logic, material and color
extraction, thumbnail capture, and the export baking path.

Conventions of the embedding:
* Scalar values carried by the runtime's floating-point numbers are
  modelled as rationals (`ℚ`); the identities proved are exact, so they
  hold "within floating-point tolerance" for the float program on the
  nondegenerate inputs where no division by zero occurs.
* The degenerate-bounds path (division by zero) is modelled separately
  with `JsNum`, a numeric type with `inf`/`ninf`/`nan` following IEEE-754
  special-value rules, because there the float program leaves the realm
  of real arithmetic.
* The scene graph root (a group holding the loaded meshes) is modelled by
  its local-space content bounds plus the root translation and uniform
  root scale that the pipeline mutates; the world transform of the root
  maps a point `p` to `scale • p + position` (translation composed after
  scaling, as the runtime's transform composition does).
-/

namespace Katalog

/-- A 3D vector with rational components (models `THREE.Vector3`). -/
structure Vec3 where
  x : ℚ
  y : ℚ
  z : ℚ
deriving DecidableEq, Repr

/-- An axis-aligned box given by its two corners (models `THREE.Box3`). -/
structure Box3 where
  min : Vec3
  max : Vec3
deriving DecidableEq, Repr

/-- `Box3.getCenter`: the midpoint `(min + max) * 0.5`. -/
def Box3.getCenter (b : Box3) : Vec3 :=
  ⟨(b.min.x + b.max.x) / 2, (b.min.y + b.max.y) / 2, (b.min.z + b.max.z) / 2⟩

/-- `Box3.getSize`: the extent `max - min`. -/
def Box3.getSize (b : Box3) : Vec3 :=
  ⟨b.max.x - b.min.x, b.max.y - b.min.y, b.max.z - b.min.z⟩

/-- The model root: `gmin`/`gmax` are the bounds of the root's content
(child meshes with their own transforms) expressed with an identity root
transform; `pos` and `scale` are the root's translation and uniform
scale, the only root-transform fields the pipeline writes
(`model.position.set`, `model.scale.setScalar`). -/
structure ModelState where
  gmin : Vec3
  gmax : Vec3
  pos : Vec3
  scale : ℚ
deriving DecidableEq, Repr

/-- World-space bounds of the root (models `new THREE.Box3().setFromObject(model)`):
each content corner `p` maps to `scale • p + pos`, and the box is the
componentwise min/max over the mapped corners. -/
def worldBox (m : ModelState) : Box3 :=
  { min := ⟨min (m.scale * m.gmin.x) (m.scale * m.gmax.x) + m.pos.x,
            min (m.scale * m.gmin.y) (m.scale * m.gmax.y) + m.pos.y,
            min (m.scale * m.gmin.z) (m.scale * m.gmax.z) + m.pos.z⟩,
    max := ⟨max (m.scale * m.gmin.x) (m.scale * m.gmax.x) + m.pos.x,
            max (m.scale * m.gmin.y) (m.scale * m.gmax.y) + m.pos.y,
            max (m.scale * m.gmin.z) (m.scale * m.gmax.z) + m.pos.z⟩ }

/-- `snapToGround(model, skipSnap?)`: unless skipped, recompute the world
box and subtract its `min.y` from the root's `position.y`. -/
def snapToGround (m : ModelState) (skipSnap : Bool := false) : ModelState :=
  if skipSnap then m
  else { m with pos := { m.pos with y := m.pos.y - (worldBox m).min.y } }

/-- The load-time normalization performed in `initPreview`'s load callback:
compute bounds, set the root position so the horizontal center moves to
the origin and the bottom to `y = 0`, apply the uniform preview scale
`2 / maxDim`, then re-run the ground snap. Returns the normalized root;
the bounds captured before normalization (`originalBBoxRef`) are the
input box itself. Faithful to the float code whenever `maxDim ≠ 0`. -/
def initPreviewNormalize (g : Box3) : ModelState :=
  let center := g.getCenter
  let size := g.getSize
  let positioned : ModelState :=
    { gmin := g.min, gmax := g.max
      pos := ⟨-center.x, -g.min.y, -center.z⟩
      scale := 1 }
  let maxDim := max size.x (max size.y size.z)
  let scale := 2 / maxDim
  let scaled := { positioned with scale := scale }
  snapToGround scaled

/-- The three manipulation modes of the transform widget. -/
inductive TMode where
  | translate
  | rotate
  | scale
deriving DecidableEq, Repr

/-- The state the drag-end handler reads and writes: the manual-position
flag (`manualPositionSetRef`) and the model root. -/
structure DragState where
  manual : Bool
  model : ModelState
deriving DecidableEq, Repr

/-- The `dragging-changed` handler's drag-end branch (`event.value` false):
in translate mode mark the position as manually set; then snap to ground,
skipped iff the (just-updated) manual flag is set and the mode is
translate. -/
def dragEnd (mode : TMode) (st : DragState) : DragState :=
  let manual := if mode = TMode.translate then true else st.manual
  let skipSnap := manual && decide (mode = TMode.translate)
  { manual := manual, model := snapToGround st.model skipSnap }

/-- The "Snap" reset button: clear the manual flag and snap to ground
unconditionally. -/
def resetSnap (st : DragState) : DragState :=
  { manual := false, model := snapToGround st.model }

inductive JsNum where
  | fin (q : ℚ)
  | inf
  | ninf
  | nan
deriving DecidableEq, Repr

namespace JsNum

/-- IEEE negation. -/
def neg : JsNum → JsNum
  | fin q => fin (-q)
  | inf => ninf
  | ninf => inf
  | nan => nan

/-- IEEE addition. -/
def add : JsNum → JsNum → JsNum
  | nan, _ => nan
  | _, nan => nan
  | fin a, fin b => fin (a + b)
  | fin _, inf => inf
  | fin _, ninf => ninf
  | inf, fin _ => inf
  | ninf, fin _ => ninf
  | inf, inf => inf
  | ninf, ninf => ninf
  | inf, ninf => nan
  | ninf, inf => nan

/-- IEEE subtraction. -/
def sub (a b : JsNum) : JsNum := add a (neg b)

/-- IEEE multiplication. -/
def mul : JsNum → JsNum → JsNum
  | nan, _ => nan
  | _, nan => nan
  | fin a, fin b => fin (a * b)
  | fin a, inf => if 0 < a then inf else if a < 0 then ninf else nan
  | inf, fin b => if 0 < b then inf else if b < 0 then ninf else nan
  | fin a, ninf => if 0 < a then ninf else if a < 0 then inf else nan
  | ninf, fin b => if 0 < b then ninf else if b < 0 then inf else nan
  | inf, inf => inf
  | ninf, ninf => inf
  | inf, ninf => ninf
  | ninf, inf => ninf

/-- IEEE division (zero denominators behave like `+0`). -/
def div : JsNum → JsNum → JsNum
  | nan, _ => nan
  | _, nan => nan
  | fin a, fin b =>
      if b = 0 then (if 0 < a then inf else if a < 0 then ninf else nan)
      else fin (a / b)
  | fin _, inf => fin 0
  | fin _, ninf => fin 0
  | inf, fin b => if 0 ≤ b then inf else ninf
  | ninf, fin b => if 0 ≤ b then ninf else inf
  | inf, inf => nan
  | inf, ninf => nan
  | ninf, inf => nan
  | ninf, ninf => nan

/-- `Math.min` (propagates `NaN`). -/
def fmin : JsNum → JsNum → JsNum
  | nan, _ => nan
  | _, nan => nan
  | fin a, fin b => fin (min a b)
  | ninf, _ => ninf
  | _, ninf => ninf
  | inf, b => b
  | a, inf => a

/-- `Math.max` (propagates `NaN`). -/
def fmax : JsNum → JsNum → JsNum
  | nan, _ => nan
  | _, nan => nan
  | fin a, fin b => fin (max a b)
  | inf, _ => inf
  | _, inf => inf
  | ninf, b => b
  | a, ninf => a

end JsNum

/-- A 3D vector over `JsNum`. -/
structure JsVec3 where
  x : JsNum
  y : JsNum
  z : JsNum
deriving DecidableEq, Repr

/-- Model root over `JsNum` (same shape as `ModelState`). -/
structure JsModel where
  gmin : JsVec3
  gmax : JsVec3
  pos : JsVec3
  scale : JsNum
deriving DecidableEq, Repr

/-- `min.y` of the world bounds over `JsNum`. -/
def jsWorldMinY (m : JsModel) : JsNum :=
  JsNum.add (JsNum.fmin (JsNum.mul m.scale m.gmin.y) (JsNum.mul m.scale m.gmax.y)) m.pos.y

/-- `snapToGround` over `JsNum`. -/
def jsSnapToGround (m : JsModel) : JsModel :=
  { m with pos := { m.pos with y := JsNum.sub m.pos.y (jsWorldMinY m) } }

/-- The load-time normalization of `initPreview` over `JsNum`, used to
track what the float program does on degenerate bounds: the same centering
translation, the preview scale `2 / maxDim` with IEEE division, and the
ground re-snap. -/
def jsInitPreviewNormalize (gmin gmax : JsVec3) : JsModel :=
  let cx := JsNum.mul (JsNum.add gmin.x gmax.x) (JsNum.fin (1 / 2))
  let cz := JsNum.mul (JsNum.add gmin.z gmax.z) (JsNum.fin (1 / 2))
  let sx := JsNum.sub gmax.x gmin.x
  let sy := JsNum.sub gmax.y gmin.y
  let sz := JsNum.sub gmax.z gmin.z
  let maxDim := JsNum.fmax sx (JsNum.fmax sy sz)
  let scale := JsNum.div (JsNum.fin 2) maxDim
  jsSnapToGround
    { gmin := gmin, gmax := gmax
      pos := ⟨JsNum.neg cx, JsNum.neg gmin.y, JsNum.neg cz⟩
      scale := scale }

/-! ## Material and color extraction

The scene is modelled by the list, in traversal order, of the materials
of its mesh regions (`model.traverse` flattened over each mesh's
material array).  A source material carries the fields the extractor
reads; `color` is the lowercase six-digit hex string `getHexString`
would return, or `none` when the material has no color. -/

/-- A mesh material as the extractor sees it. -/
structure SrcMaterial where
  name : String
  type : String
  color : Option String
  metalness : Option ℚ
  roughness : Option ℚ
deriving DecidableEq, Repr

/-- The `MaterialInfo` record the extractor emits. -/
structure MaterialInfo where
  name : String
  type : String
  color : String
  metalness : ℚ
  roughness : ℚ
deriving DecidableEq, Repr

/-- Whether `pat` occurs at the head of `s`. -/
def leadsWith : List Char → List Char → Bool
  | [], _ => true
  | _ :: _, [] => false
  | p :: ps, c :: cs => p = c && leadsWith ps cs

/-- Replace the first occurrence of `pat` in `s` by `rep` (the behavior
of the runtime's `String.replace` with a string pattern). -/
def replaceFirst (pat rep : List Char) : List Char → List Char
  | [] => []
  | c :: cs =>
      if leadsWith pat (c :: cs) then rep ++ (c :: cs).drop pat.length
      else c :: replaceFirst pat rep cs

/-- Build one `MaterialInfo` from a source material: name defaulting to
`"Unnamed"`, the `"Material"` substring dropped from the type, the color
as `#`-prefixed hex defaulting to `#cccccc`, and metalness/roughness
defaulting to `0`/`1` (the `??` fallbacks). -/
def toMaterialInfo (m : SrcMaterial) : MaterialInfo :=
  { name := if m.name = "" then "Unnamed" else m.name
    type := String.mk (replaceFirst "Material".data [] m.type.data)
    color := match m.color with
      | some h => "#" ++ h
      | none => "#cccccc"
    metalness := m.metalness.getD 0
    roughness := m.roughness.getD 1 }

/-- The dedup key: the template string `` `${m.name}-${m.color?.getHexString()}` ``
(an absent color interpolates as `"undefined"`). -/
def matKey (m : SrcMaterial) : String :=
  m.name ++ "-" ++ (match m.color with | some h => h | none => "undefined")

/-- One traversal of `extractMaterials`, carrying the two seen-sets
(`matSet`, `colorSet`): emit a `MaterialInfo` for each unseen key, and
push each unseen non-black hex onto the palette. -/
def extractAux (matSeen colSeen : List String) :
    List SrcMaterial → List MaterialInfo × List String
  | [] => ([], [])
  | m :: ms =>
      let key := matKey m
      let matSeen' := if key ∈ matSeen then matSeen else key :: matSeen
      let hexNew : Option String :=
        match m.color with
        | some h =>
            let hex := "#" ++ h
            if hex ∉ colSeen ∧ hex ≠ "#000000" then some hex else none
        | none => none
      let colSeen' := match hexNew with | some hex => hex :: colSeen | none => colSeen
      let rest := extractAux matSeen' colSeen' ms
      (if key ∈ matSeen then rest.1 else toMaterialInfo m :: rest.1,
       match hexNew with | some hex => hex :: rest.2 | none => rest.2)

/-- `extractMaterials`: the deduplicated material list and the color
palette of a scene. -/
def extractMaterials (ms : List SrcMaterial) : List MaterialInfo × List String :=
  extractAux [] [] ms

/-- The source materials that survive key deduplication (first occurrence
of each key kept), mirroring the `matSet` logic of `extractAux`. -/
def keptMaterials (seen : List String) : List SrcMaterial → List SrcMaterial
  | [] => []
  | m :: ms =>
      if matKey m ∈ seen then keptMaterials seen ms
      else m :: keptMaterials (matKey m :: seen) ms

/-- Keep the first occurrence of each element (insertion-order dedup);
the reference function for the palette refinement statement. -/
def firstDedupAux (seen : List String) : List String → List String
  | [] => []
  | h :: t => if h ∈ seen then firstDedupAux seen t else h :: firstDedupAux (h :: seen) t

/-- The `#`-prefixed hex colors of a scene in traversal order (materials
without a color contribute nothing). -/
def colorHexes (ms : List SrcMaterial) : List String :=
  ms.filterMap (fun m => m.color.map (fun h => "#" ++ h))

/-- The sixteen lowercase hex digits. -/
def hexDigits : List Char := "0123456789abcdef".data

/-- A string `getHexString` can return: six lowercase hex digits. -/
def ValidHex (h : String) : Prop :=
  h.length = 6 ∧ ∀ c ∈ h.data, c ∈ hexDigits

instance : DecidablePred ValidHex := fun h =>
  decidable_of_iff (h.length = 6 ∧ ∀ c ∈ h.data, c ∈ hexDigits) Iff.rfl

/-- A well-formed optional color field. -/
def ValidColorOpt : Option String → Prop
  | some h => ValidHex h
  | none => True

instance (o : Option String) : Decidable (ValidColorOpt o) :=
  match o with
  | some h => (inferInstance : Decidable (ValidHex h))
  | none => (inferInstance : Decidable True)

/-- Every material color of the scene is a well-formed hex string. -/
def ValidColors (ms : List SrcMaterial) : Prop :=
  ∀ m ∈ ms, ValidColorOpt m.color

instance (ms : List SrcMaterial) : Decidable (ValidColors ms) :=
  List.decidableBAll _ ms

/-! ## Thumbnail capture

The scene state `captureThumbnail` reads and writes: the renderer/scene/
camera presence (`ready`), the scene background (`none` models a null
background), and the visibility flags of the grid helper and of the
transform widget (`none` models an absent ref).  Rendering plus raster
readback plus auto-crop is an opaque pure function `shoot` of the scene
state. -/

/-- The live scene state relevant to thumbnail capture. -/
structure SceneState where
  ready : Bool
  background : Option ℚ
  gridVisible : Option Bool
  tcVisible : Option Bool
deriving DecidableEq, Repr

/-- `captureThumbnail`: bail out when renderer/scene/camera are missing;
save the background; hide the transform widget and the grid; clear the
background; render and auto-crop (`shoot`); restore the background, set
the widget visible, restore the grid's saved visibility; re-render.
Returns the cropped raster and the final scene state. -/
def captureThumbnail {α : Type} (shoot : SceneState → α) (s : SceneState) :
    Option α × SceneState :=
  if s.ready = false then (none, s)
  else
    let originalBackground := s.background
    let s1 := { s with tcVisible := s.tcVisible.map (fun _ => false) }
    let gridWasVisible := s1.gridVisible
    let s2 := { s1 with gridVisible := s1.gridVisible.map (fun _ => false) }
    let s3 := { s2 with background := none }
    let thumb := shoot s3
    let s4 := { s3 with background := originalBackground }
    let s5 := { s4 with tcVisible := s4.tcVisible.map (fun _ => true) }
    let s6 :=
      match gridWasVisible with
      | some b => { s5 with gridVisible := s5.gridVisible.map (fun _ => b) }
      | none => s5
    (some thumb, s6)

/-- Concrete drag-session state used as an input for the drag-end
analysis: the manual-position flag is set and the model floats one unit
above the ground. -/
def cexDragState : DragState :=
  { manual := true
    model := { gmin := ⟨0, 1, 0⟩, gmax := ⟨1, 2, 1⟩, pos := ⟨0, 0, 0⟩, scale := 1 } }

/-! ## Theorems -/

/-- An (unskipped) ground snap always brings the world bounds' `min.y`
to exactly zero: the snap subtracts the current `min.y` from the root's
`y` translation, and translation shifts the bounds additively. -/
theorem worldBox_snapToGround_min_y (m : ModelState) :
    (worldBox (snapToGround m)).min.y = 0 := by
  simp [snapToGround, worldBox]

/-- C6: for a model with well-formed, non-degenerate bounds, the load-time
normalization (centering, preview scaling, then the required ground-snap
re-run) leaves the world bounds' `min.y` at exactly zero. -/
theorem initPreview_ground_snap_invariant (g : Box3)
    (hx : g.min.x ≤ g.max.x) (hy : g.min.y ≤ g.max.y) (hz : g.min.z ≤ g.max.z)
    (hpos : g.min.x < g.max.x ∨ g.min.y < g.max.y ∨ g.min.z < g.max.z) :
    (worldBox (initPreviewNormalize g)).min.y = 0 :=
  worldBox_snapToGround_min_y _

/-- Witness for C6 at a concrete non-degenerate box. -/
theorem initPreview_ground_snap_invariant_witness :
    ((Box3.mk ⟨10, 0, 10⟩ ⟨14, 1, 14⟩).min.x ≤ (Box3.mk ⟨10, 0, 10⟩ ⟨14, 1, 14⟩).max.x
      ∧ (Box3.mk ⟨10, 0, 10⟩ ⟨14, 1, 14⟩).min.y ≤ (Box3.mk ⟨10, 0, 10⟩ ⟨14, 1, 14⟩).max.y
      ∧ (Box3.mk ⟨10, 0, 10⟩ ⟨14, 1, 14⟩).min.z ≤ (Box3.mk ⟨10, 0, 10⟩ ⟨14, 1, 14⟩).max.z
      ∧ (Box3.mk ⟨10, 0, 10⟩ ⟨14, 1, 14⟩).min.x < (Box3.mk ⟨10, 0, 10⟩ ⟨14, 1, 14⟩).max.x)
    ∧ (worldBox (initPreviewNormalize ⟨⟨10, 0, 10⟩, ⟨14, 1, 14⟩⟩)).min.y = 0 :=
  ⟨⟨by decide, by decide, by decide, by decide⟩,
    initPreview_ground_snap_invariant ⟨⟨10, 0, 10⟩, ⟨14, 1, 14⟩⟩
      (by decide) (by decide) (by decide) (Or.inl (by decide))⟩

/-- C5: the drag-end ground-snap is asymmetric by mode.  A translate
drag-end sets the manual flag and leaves the model untouched (the user's
`y` position, possibly nonzero, is retained); a rotate or scale drag-end
leaves the manual flag alone and snaps the world bounds' `min.y` back to
zero — for every state, in particular when the manual flag is already
set. -/
theorem dragEnd_groundsnap_asymmetry (st : DragState) :
    ((dragEnd TMode.translate st).manual = true
      ∧ (dragEnd TMode.translate st).model = st.model)
    ∧ ((dragEnd TMode.rotate st).manual = st.manual
      ∧ (worldBox (dragEnd TMode.rotate st).model).min.y = 0)
    ∧ ((dragEnd TMode.scale st).manual = st.manual
      ∧ (worldBox (dragEnd TMode.scale st).model).min.y = 0) := by
  refine ⟨⟨rfl, rfl⟩, ⟨rfl, ?_⟩, ⟨rfl, ?_⟩⟩ <;>
    · show (worldBox (snapToGround st.model (st.manual && false))).min.y = 0
      rw [Bool.and_false]
      exact worldBox_snapToGround_min_y st.model

/-- C4 counterexample: with the manual-position flag already set, a
rotate-mode drag-end still runs the ground snap — the root is moved from
`y = 0` down to `y = -1` so that the bounds touch the ground — instead of
being suppressed as the claim states. -/
theorem dragEnd_rotate_snaps_despite_override :
    cexDragState.manual = true
    ∧ (dragEnd TMode.rotate cexDragState).model.pos.y = -1
    ∧ cexDragState.model.pos.y = 0 := by
  refine ⟨rfl, ?_, rfl⟩
  norm_num [cexDragState, dragEnd, snapToGround, worldBox]
  rfl

/-- C4 (amended): the manual-position override suppresses the drag-end
ground snap only in translate mode; rotate- and scale-mode drag-ends
still snap the bounds to the ground, and the explicit "Snap" reset
clears the flag and snaps immediately. -/
theorem manualOverride_translate_only (st : DragState) (h : st.manual = true) :
    (dragEnd TMode.translate st).model = st.model
    ∧ (worldBox (dragEnd TMode.rotate st).model).min.y = 0
    ∧ (worldBox (dragEnd TMode.scale st).model).min.y = 0
    ∧ (resetSnap st).manual = false
    ∧ (worldBox (resetSnap st).model).min.y = 0 := by
  refine ⟨rfl, ?_, ?_, rfl, worldBox_snapToGround_min_y st.model⟩ <;>
    · show (worldBox (snapToGround st.model (st.manual && false))).min.y = 0
      rw [Bool.and_false]
      exact worldBox_snapToGround_min_y st.model

/-- Witness for the amended C4 at a concrete state with the flag set. -/
theorem manualOverride_translate_only_witness :
    cexDragState.manual = true
    ∧ ((dragEnd TMode.translate cexDragState).model = cexDragState.model
      ∧ (worldBox (dragEnd TMode.rotate cexDragState).model).min.y = 0
      ∧ (worldBox (dragEnd TMode.scale cexDragState).model).min.y = 0
      ∧ (resetSnap cexDragState).manual = false
      ∧ (worldBox (resetSnap cexDragState).model).min.y = 0) :=
  ⟨rfl, manualOverride_translate_only cexDragState rfl⟩

/-- C2 counterexample: normalization does not re-center after scaling, so
for a model whose original bounds are horizontally off-origin (here center
`(12, ·, 12)`, preview scale `1/2`) the world-bounds midpoint ends at
`(-6, -6)` in X/Z, not at the origin. -/
theorem initPreview_centering_failure :
    ((worldBox (initPreviewNormalize ⟨⟨10, 0, 10⟩, ⟨14, 1, 14⟩⟩)).min.x
        + (worldBox (initPreviewNormalize ⟨⟨10, 0, 10⟩, ⟨14, 1, 14⟩⟩)).max.x) / 2 = -6
    ∧ ((worldBox (initPreviewNormalize ⟨⟨10, 0, 10⟩, ⟨14, 1, 14⟩⟩)).min.z
        + (worldBox (initPreviewNormalize ⟨⟨10, 0, 10⟩, ⟨14, 1, 14⟩⟩)).max.z) / 2 = -6
    ∧ ((-6 : ℚ) ≠ 0) := by
  refine ⟨?_, ?_, by norm_num⟩ <;>
    norm_num [initPreviewNormalize, snapToGround, worldBox, Box3.getCenter, Box3.getSize]

/-- C3 evaluation: on zero-size bounds (single-point geometry at
`(3, 5, 7)`) the normalization computes the preview scale `2 / 0`, which
is `Infinity` under the runtime's arithmetic — not `1` — and the
subsequent ground snap drives the root's `y` translation to `-Infinity`:
the special values propagate into the root transform. -/
theorem jsInitPreview_zero_bounds_corrupts :
    (jsInitPreviewNormalize ⟨JsNum.fin 3, JsNum.fin 5, JsNum.fin 7⟩
        ⟨JsNum.fin 3, JsNum.fin 5, JsNum.fin 7⟩).scale = JsNum.inf
    ∧ (jsInitPreviewNormalize ⟨JsNum.fin 3, JsNum.fin 5, JsNum.fin 7⟩
        ⟨JsNum.fin 3, JsNum.fin 5, JsNum.fin 7⟩).scale ≠ JsNum.fin 1
    ∧ (jsInitPreviewNormalize ⟨JsNum.fin 3, JsNum.fin 5, JsNum.fin 7⟩
        ⟨JsNum.fin 3, JsNum.fin 5, JsNum.fin 7⟩).pos.y = JsNum.ninf := by
  have h1 : (jsInitPreviewNormalize ⟨JsNum.fin 3, JsNum.fin 5, JsNum.fin 7⟩
      ⟨JsNum.fin 3, JsNum.fin 5, JsNum.fin 7⟩).scale = JsNum.inf := by
    norm_num [jsInitPreviewNormalize, jsSnapToGround, jsWorldMinY, JsNum.div, JsNum.mul,
      JsNum.add, JsNum.sub, JsNum.neg, JsNum.fmin, JsNum.fmax]
  have h3 : (jsInitPreviewNormalize ⟨JsNum.fin 3, JsNum.fin 5, JsNum.fin 7⟩
      ⟨JsNum.fin 3, JsNum.fin 5, JsNum.fin 7⟩).pos.y = JsNum.ninf := by
    norm_num [jsInitPreviewNormalize, jsSnapToGround, jsWorldMinY, JsNum.div, JsNum.mul,
      JsNum.add, JsNum.sub, JsNum.neg, JsNum.fmin, JsNum.fmax]
  exact ⟨h1, by rw [h1]; decide, h3⟩

/-- Normalization does not touch the content bounds. -/
theorem initPreviewNormalize_gmin (g : Box3) : (initPreviewNormalize g).gmin = g.min := by
  simp [initPreviewNormalize, snapToGround]

/-- Normalization does not touch the content bounds. -/
theorem initPreviewNormalize_gmax (g : Box3) : (initPreviewNormalize g).gmax = g.max := by
  simp [initPreviewNormalize, snapToGround]

/-- The sum of a min/max pair shifted by a common translation. -/
theorem mid_shift (A B p : ℚ) : (min A B + p + (max A B + p)) / 2 = (A + B) / 2 + p := by
  rw [show min A B + p + (max A B + p) = (min A B + max A B) + 2 * p by ring, min_add_max]
  ring

/-- The `x` root translation set by normalization. -/
theorem initPreviewNormalize_pos_x (g : Box3) :
    (initPreviewNormalize g).pos.x = -((g.min.x + g.max.x) / 2) := by
  simp [initPreviewNormalize, snapToGround, Box3.getCenter]

/-- The `z` root translation set by normalization. -/
theorem initPreviewNormalize_pos_z (g : Box3) :
    (initPreviewNormalize g).pos.z = -((g.min.z + g.max.z) / 2) := by
  simp [initPreviewNormalize, snapToGround, Box3.getCenter]

/-- C2 (amended): the centering translation is applied before the preview
scaling and is never re-derived, so after normalization the horizontal
midpoint of the world bounds is `(scale - 1) · center` in X and Z, where
`center` is the horizontal center of the bounds captured at load and
`scale` is the preview scale; it is `(0, 0)` whenever the model's
original horizontal center is already at the origin (and when the
preview scale is 1), but not in general. -/
theorem initPreview_centering_offset (g : Box3)
    (hpos : g.min.x < g.max.x ∨ g.min.y < g.max.y ∨ g.min.z < g.max.z) :
    ((worldBox (initPreviewNormalize g)).min.x + (worldBox (initPreviewNormalize g)).max.x) / 2
      = ((initPreviewNormalize g).scale - 1) * ((g.min.x + g.max.x) / 2)
    ∧ ((worldBox (initPreviewNormalize g)).min.z + (worldBox (initPreviewNormalize g)).max.z) / 2
      = ((initPreviewNormalize g).scale - 1) * ((g.min.z + g.max.z) / 2)
    ∧ ((g.min.x + g.max.x) / 2 = 0 → (g.min.z + g.max.z) / 2 = 0 →
        ((worldBox (initPreviewNormalize g)).min.x
            + (worldBox (initPreviewNormalize g)).max.x) / 2 = 0
        ∧ ((worldBox (initPreviewNormalize g)).min.z
            + (worldBox (initPreviewNormalize g)).max.z) / 2 = 0) := by
  have hX : ((worldBox (initPreviewNormalize g)).min.x
      + (worldBox (initPreviewNormalize g)).max.x) / 2
      = ((initPreviewNormalize g).scale - 1) * ((g.min.x + g.max.x) / 2) := by
    simp only [worldBox]
    rw [initPreviewNormalize_gmin, initPreviewNormalize_gmax, initPreviewNormalize_pos_x,
      mid_shift]
    ring
  have hZ : ((worldBox (initPreviewNormalize g)).min.z
      + (worldBox (initPreviewNormalize g)).max.z) / 2
      = ((initPreviewNormalize g).scale - 1) * ((g.min.z + g.max.z) / 2) := by
    simp only [worldBox]
    rw [initPreviewNormalize_gmin, initPreviewNormalize_gmax, initPreviewNormalize_pos_z,
      mid_shift]
    ring
  exact ⟨hX, hZ, fun h1 h2 =>
    ⟨by rw [hX, h1, mul_zero], by rw [hZ, h2, mul_zero]⟩⟩

/-- Witness for the amended C2 at the off-center box
`[10,14] × [0,1] × [10,14]` (center 12, preview scale 1/2): the midpoint
formula gives `(1/2 - 1) * 12 = -6`. -/
theorem initPreview_centering_offset_witness :
    ((Box3.mk ⟨10, 0, 10⟩ ⟨14, 1, 14⟩).min.x < (Box3.mk ⟨10, 0, 10⟩ ⟨14, 1, 14⟩).max.x)
    ∧ (((worldBox (initPreviewNormalize ⟨⟨10, 0, 10⟩, ⟨14, 1, 14⟩⟩)).min.x
          + (worldBox (initPreviewNormalize ⟨⟨10, 0, 10⟩, ⟨14, 1, 14⟩⟩)).max.x) / 2
        = ((initPreviewNormalize ⟨⟨10, 0, 10⟩, ⟨14, 1, 14⟩⟩).scale - 1)
          * (((Box3.mk ⟨10, 0, 10⟩ ⟨14, 1, 14⟩).min.x
              + (Box3.mk ⟨10, 0, 10⟩ ⟨14, 1, 14⟩).max.x) / 2)
      ∧ ((worldBox (initPreviewNormalize ⟨⟨10, 0, 10⟩, ⟨14, 1, 14⟩⟩)).min.z
          + (worldBox (initPreviewNormalize ⟨⟨10, 0, 10⟩, ⟨14, 1, 14⟩⟩)).max.z) / 2
        = ((initPreviewNormalize ⟨⟨10, 0, 10⟩, ⟨14, 1, 14⟩⟩).scale - 1)
          * (((Box3.mk ⟨10, 0, 10⟩ ⟨14, 1, 14⟩).min.z
              + (Box3.mk ⟨10, 0, 10⟩ ⟨14, 1, 14⟩).max.z) / 2)
      ∧ (((Box3.mk ⟨10, 0, 10⟩ ⟨14, 1, 14⟩).min.x
            + (Box3.mk ⟨10, 0, 10⟩ ⟨14, 1, 14⟩).max.x) / 2 = 0 →
          ((Box3.mk ⟨10, 0, 10⟩ ⟨14, 1, 14⟩).min.z
            + (Box3.mk ⟨10, 0, 10⟩ ⟨14, 1, 14⟩).max.z) / 2 = 0 →
          ((worldBox (initPreviewNormalize ⟨⟨10, 0, 10⟩, ⟨14, 1, 14⟩⟩)).min.x
              + (worldBox (initPreviewNormalize ⟨⟨10, 0, 10⟩, ⟨14, 1, 14⟩⟩)).max.x) / 2 = 0
          ∧ ((worldBox (initPreviewNormalize ⟨⟨10, 0, 10⟩, ⟨14, 1, 14⟩⟩)).min.z
              + (worldBox (initPreviewNormalize ⟨⟨10, 0, 10⟩, ⟨14, 1, 14⟩⟩)).max.z) / 2 = 0)) :=
  ⟨by decide,
    initPreview_centering_offset ⟨⟨10, 0, 10⟩, ⟨14, 1, 14⟩⟩ (Or.inl (by decide))⟩

/-- C9 counterexample: the capture restores the saved background and the
saved grid visibility, but sets the transform widget **visible**
unconditionally instead of restoring its saved value: starting from a
state whose widget is hidden, the state after the call differs from the
state before. -/
theorem captureThumbnail_tc_not_restored :
    (captureThumbnail (fun _ => (0 : ℕ))
        { ready := true, background := some 1, gridVisible := some true,
          tcVisible := some false }).2.tcVisible = some true
    ∧ ({ ready := true, background := some 1, gridVisible := some true,
          tcVisible := some false } : SceneState).tcVisible = some false := by
  exact ⟨rfl, rfl⟩

/-- C9 (amended): the capture always restores the scene background and
the grid's visibility and leaves `ready` alone; the transform widget is
set visible rather than restored, so whenever the widget was not hidden
before the call (as in every state this app reaches at capture time) the
scene state is exactly unchanged and a second capture with no intervening
change returns the identical cropped output. -/
theorem captureThumbnail_state_restore {α : Type} (shoot : SceneState → α) (s : SceneState) :
    ((captureThumbnail shoot s).2.background = s.background
      ∧ (captureThumbnail shoot s).2.gridVisible = s.gridVisible
      ∧ (captureThumbnail shoot s).2.ready = s.ready)
    ∧ (s.tcVisible ≠ some false →
        (captureThumbnail shoot s).2 = s
        ∧ (captureThumbnail shoot ((captureThumbnail shoot s).2)).1
            = (captureThumbnail shoot s).1) := by
  obtain ⟨r, bg, grid, tc⟩ := s
  cases r <;> rcases grid with _ | ⟨_ | _⟩ <;> rcases tc with _ | ⟨_ | _⟩ <;>
    simp [captureThumbnail]

/-- Witness for the amended C9 at a concrete ready state with the widget
visible. -/
theorem captureThumbnail_state_restore_witness :
    (({ ready := true, background := some 1, gridVisible := some true,
          tcVisible := some true } : SceneState).tcVisible ≠ some false)
    ∧ ((captureThumbnail (fun _ => (37 : ℕ))
          { ready := true, background := some 1, gridVisible := some true,
            tcVisible := some true }).2
        = { ready := true, background := some 1, gridVisible := some true,
            tcVisible := some true }
      ∧ (captureThumbnail (fun _ => (37 : ℕ))
            ((captureThumbnail (fun _ => (37 : ℕ))
              { ready := true, background := some 1, gridVisible := some true,
                tcVisible := some true }).2)).1
          = (captureThumbnail (fun _ => (37 : ℕ))
              { ready := true, background := some 1, gridVisible := some true,
                tcVisible := some true }).1) :=
  ⟨by decide,
    (captureThumbnail_state_restore (fun _ => (37 : ℕ))
      { ready := true, background := some 1, gridVisible := some true,
        tcVisible := some true }).2 (by decide)⟩

/-- Strings with equal character data are equal. -/
theorem strExt {a b : String} (h : a.data = b.data) : a = b := by
  cases a; cases b; exact congrArg String.mk h

/-- Appending the `#` sigil is injective. -/
theorem hash_append_inj {a b : String} (h : "#" ++ a = "#" ++ b) : a = b := by
  have hd : ('#' :: a.data) = ('#' :: b.data) := by
    simpa [String.data_append] using congrArg String.data h
  exact strExt (by injection hd)

/-- The character data of a dedup key: the name, a dash, then the hex
digits (or the characters of `"undefined"` for an absent color). -/
theorem matKey_data (m : SrcMaterial) :
    (matKey m).data = m.name.data
      ++ ('-' :: (match m.color with | some h => h.data | none => "undefined".data)) := by
  rcases hc : m.color with _ | t <;>
    simp [matKey, hc, String.data_append, List.append_assoc,
      show ("-" : String).data = ['-'] from rfl]

/-- Keys with equal-length tails decompose uniquely. -/
theorem key_parts_inj {n1 n2 t1 t2 : List Char} (hl : t1.length = t2.length)
    (h : n1 ++ ('-' :: t1) = n2 ++ ('-' :: t2)) : n1 = n2 ∧ t1 = t2 := by
  have hinj := List.append_inj' h (by simp [hl])
  exact ⟨hinj.1, by injection hinj.2⟩

/-- A six-hex-digit tail can never collide with the `"undefined"` tail:
the sixth-from-last character of the combined key would have to be `'i'`,
which is not a hex digit. -/
theorem hex_vs_undefined {n1 n2 t : List Char} (hlen : t.length = 6)
    (hhex : ∀ c ∈ t, c ∈ hexDigits)
    (h : n1 ++ ('-' :: t) = n2 ++ ('-' :: "undefined".data)) : False := by
  have hr := congrArg List.reverse h
  rw [List.reverse_append, List.reverse_append, List.reverse_cons, List.reverse_cons,
    List.append_assoc, List.append_assoc] at hr
  have ht := congrArg (List.take 6) hr
  rw [List.take_left' (by simp [hlen]), List.take_append_of_le_length (by decide)] at ht
  have hi : 'i' ∈ t.reverse := by rw [ht]; decide
  exact absurd (hhex 'i' (List.mem_reverse.mp hi)) (by decide)

/-- Under well-formed colors the dedup key determines the pair
`(name, colorHex)`: the key of the template string is injective. -/
theorem matKey_inj (m1 m2 : SrcMaterial) (hv1 : ValidColorOpt m1.color)
    (hv2 : ValidColorOpt m2.color) (hk : matKey m1 = matKey m2) :
    m1.name = m2.name ∧ m1.color = m2.color := by
  have hd := congrArg String.data hk
  rw [matKey_data, matKey_data] at hd
  rcases e1 : m1.color with _ | t1 <;> rcases e2 : m2.color with _ | t2 <;>
      rw [e1] at hd hv1 <;> rw [e2] at hd hv2 <;> simp only at hd
  · exact ⟨strExt (key_parts_inj rfl hd).1, rfl⟩
  · exact absurd hd.symm (fun hcon => hex_vs_undefined hv2.1 hv2.2 hcon)
  · exact absurd hd (fun hcon => hex_vs_undefined hv1.1 hv1.2 hcon)
  · have hl : t1.data.length = t2.data.length := by
      have l1 : t1.data.length = 6 := hv1.1
      have l2 : t2.data.length = 6 := hv2.1
      rw [l1, l2]
    obtain ⟨hn, ht⟩ := key_parts_inj hl hd
    exact ⟨strExt hn, congrArg some (strExt ht)⟩

/-- Equal name and color give equal dedup keys. -/
theorem matKey_congr {m1 m2 : SrcMaterial} (hn : m1.name = m2.name)
    (hc : m1.color = m2.color) : matKey m1 = matKey m2 := by
  simp [matKey, hn, hc]

/-- The emitted material list is the key-deduplicated source list mapped
through `toMaterialInfo` (the color bookkeeping never affects it). -/
theorem extractAux_fst (ms : List SrcMaterial) :
    ∀ matSeen colSeen, (extractAux matSeen colSeen ms).1
      = (keptMaterials matSeen ms).map toMaterialInfo := by
  induction ms with
  | nil => intro _ _; rfl
  | cons m ms ih =>
      intro matSeen colSeen
      by_cases hk : matKey m ∈ matSeen <;>
        simp [extractAux, keptMaterials, hk, ih]

/-- The emitted palette is the black-filtered hex sequence deduplicated
keeping first occurrences (the material bookkeeping never affects it). -/
theorem extractAux_snd (ms : List SrcMaterial) :
    ∀ matSeen colSeen, (extractAux matSeen colSeen ms).2
      = firstDedupAux colSeen ((colorHexes ms).filter (fun h => h != "#000000")) := by
  induction ms with
  | nil => intro _ _; rfl
  | cons m ms ih =>
      intro matSeen colSeen
      rcases hc : m.color with _ | t
      · simp [extractAux, colorHexes, hc, ih]
      · by_cases hb : ("#" ++ t) = "#000000"
        · simp [extractAux, colorHexes, firstDedupAux, hc, hb, ih]
        · by_cases hm : ("#" ++ t) ∈ colSeen <;>
            simp [extractAux, colorHexes, firstDedupAux, hc, hb, hm, ih]

/-- Deduplication yields a subsequence of the source list. -/
theorem keptMaterials_sublist (ms : List SrcMaterial) :
    ∀ seen, List.Sublist (keptMaterials seen ms) ms := by
  induction ms with
  | nil => intro _; exact List.Sublist.refl _
  | cons m ms ih =>
      intro seen
      by_cases hk : matKey m ∈ seen
      · simp only [keptMaterials, if_pos hk]
        exact (ih seen).cons m
      · simp only [keptMaterials, if_neg hk]
        exact (ih _).cons₂ m

/-- No kept material carries an already-seen key. -/
theorem keptMaterials_not_seen (ms : List SrcMaterial) :
    ∀ seen m2, m2 ∈ keptMaterials seen ms → matKey m2 ∉ seen := by
  induction ms with
  | nil => intro seen m2 h; simp [keptMaterials] at h
  | cons m ms ih =>
      intro seen m2 h
      by_cases hk : matKey m ∈ seen
      · rw [keptMaterials, if_pos hk] at h
        exact ih seen m2 h
      · rw [keptMaterials, if_neg hk] at h
        rcases List.mem_cons.mp h with he | hm
        · rw [he]; exact hk
        · exact fun hcon => ih _ m2 hm (List.mem_cons_of_mem _ hcon)

/-- The kept materials have pairwise-distinct keys. -/
theorem keptMaterials_keys_nodup (ms : List SrcMaterial) :
    ∀ seen, ((keptMaterials seen ms).map matKey).Nodup := by
  induction ms with
  | nil => intro _; simp [keptMaterials]
  | cons m ms ih =>
      intro seen
      by_cases hk : matKey m ∈ seen
      · rw [keptMaterials, if_pos hk]
        exact ih seen
      · rw [keptMaterials, if_neg hk]
        refine List.Nodup.cons ?_ (ih _)
        intro hcon
        obtain ⟨m2, hm2, hkey⟩ := List.mem_map.mp hcon
        exact keptMaterials_not_seen ms _ m2 hm2 (hkey ▸ List.mem_cons_self _ _)

/-- First-occurrence-wins: for every key, the kept material with that key
is exactly the first source material with that key. -/
theorem keptMaterials_find_eq (ms : List SrcMaterial) :
    ∀ seen k, k ∉ seen →
      (keptMaterials seen ms).find? (fun m2 => decide (matKey m2 = k))
        = ms.find? (fun m2 => decide (matKey m2 = k)) := by
  induction ms with
  | nil => intro _ _ _; rfl
  | cons m ms ih =>
      intro seen k hk
      by_cases hm : matKey m ∈ seen
      · have hne : matKey m ≠ k := fun he => hk (he ▸ hm)
        rw [keptMaterials, if_pos hm, List.find?_cons_of_neg _ (by simp [hne])]
        exact ih seen k hk
      · rw [keptMaterials, if_neg hm]
        by_cases he : matKey m = k
        · rw [List.find?_cons_of_pos _ (by simp [he]), List.find?_cons_of_pos _ (by simp [he])]
        · rw [List.find?_cons_of_neg _ (by simp [he]), List.find?_cons_of_neg _ (by simp [he])]
          refine ih _ k ?_
          intro hcon
          rcases List.mem_cons.mp hcon with h | h
          · exact he h.symm
          · exact hk h

/-- Every source material's key is represented among the kept
materials. -/
theorem keptMaterials_complete (ms : List SrcMaterial) :
    ∀ seen m, m ∈ ms → matKey m ∉ seen →
      ∃ m2 ∈ keptMaterials seen ms, matKey m2 = matKey m := by
  induction ms with
  | nil => intro _ m h; simp at h
  | cons m0 ms ih =>
      intro seen m hmem hk
      by_cases h0 : matKey m0 ∈ seen
      · rw [keptMaterials, if_pos h0]
        rcases List.mem_cons.mp hmem with he | hm
        · exact absurd (by rw [he]; exact h0) hk
        · exact ih seen m hm hk
      · rw [keptMaterials, if_neg h0]
        rcases List.mem_cons.mp hmem with he | hm
        · exact ⟨m0, List.mem_cons_self _ _, by rw [he]⟩
        · by_cases heq : matKey m = matKey m0
          · exact ⟨m0, List.mem_cons_self _ _, heq.symm⟩
          · obtain ⟨m2, hm2, hk2⟩ := ih (matKey m0 :: seen) m hm (by
              intro hcon
              rcases List.mem_cons.mp hcon with h | h
              · exact heq h
              · exact hk h)
            exact ⟨m2, List.mem_cons_of_mem _ hm2, hk2⟩

/-- Insertion-order dedup keeps no already-seen element. -/
theorem firstDedupAux_not_seen (l : List String) :
    ∀ seen x, x ∈ firstDedupAux seen l → x ∉ seen := by
  induction l with
  | nil => intro seen x h; simp [firstDedupAux] at h
  | cons a l ih =>
      intro seen x h
      by_cases ha : a ∈ seen
      · rw [firstDedupAux, if_pos ha] at h
        exact ih seen x h
      · rw [firstDedupAux, if_neg ha] at h
        rcases List.mem_cons.mp h with he | hm
        · rw [he]; exact ha
        · exact fun hcon => ih _ x hm (List.mem_cons_of_mem _ hcon)

/-- Insertion-order dedup yields a duplicate-free list. -/
theorem firstDedupAux_nodup (l : List String) :
    ∀ seen, (firstDedupAux seen l).Nodup := by
  induction l with
  | nil => intro _; simp [firstDedupAux]
  | cons a l ih =>
      intro seen
      by_cases ha : a ∈ seen
      · rw [firstDedupAux, if_pos ha]
        exact ih seen
      · rw [firstDedupAux, if_neg ha]
        refine List.Nodup.cons ?_ (ih _)
        exact fun hcon => firstDedupAux_not_seen l _ a hcon (List.mem_cons_self _ _)

/-- Insertion-order dedup yields elements of the source list. -/
theorem firstDedupAux_subset (l : List String) :
    ∀ seen x, x ∈ firstDedupAux seen l → x ∈ l := by
  induction l with
  | nil => intro seen x h; simp [firstDedupAux] at h
  | cons a l ih =>
      intro seen x h
      by_cases ha : a ∈ seen
      · rw [firstDedupAux, if_pos ha] at h
        exact List.mem_cons_of_mem _ (ih seen x h)
      · rw [firstDedupAux, if_neg ha] at h
        rcases List.mem_cons.mp h with he | hm
        · rw [he]; exact List.mem_cons_self _ _
        · exact List.mem_cons_of_mem _ (ih _ x hm)

/-- C7: material extraction deduplicates by the composite
`(name, colorHex)` key.  The output is the source sequence with each
repeated key dropped, mapped to descriptors: a subsequence of the
traversal order, pairwise distinct in `(name, color)`, representing every
source material, whose representative for each key is the **first**
source material with that key; and two same-named materials with
different hex colors are represented by two distinct descriptors.
(Determinism is definitional here: extraction is a pure function of the
traversal sequence and mutates nothing.) -/
theorem extractMaterials_dedup_ok (ms : List SrcMaterial) (hv : ValidColors ms) :
    (extractMaterials ms).1 = (keptMaterials [] ms).map toMaterialInfo
    ∧ List.Sublist (keptMaterials [] ms) ms
    ∧ List.Pairwise (fun a b => ¬(a.name = b.name ∧ a.color = b.color)) (keptMaterials [] ms)
    ∧ (∀ m ∈ ms, ∃ m2 ∈ keptMaterials [] ms, m2.name = m.name ∧ m2.color = m.color)
    ∧ (∀ k : String, (keptMaterials [] ms).find? (fun m2 => decide (matKey m2 = k))
        = ms.find? (fun m2 => decide (matKey m2 = k)))
    ∧ (∀ m1 ∈ ms, ∀ m2 ∈ ms, ∀ h1 h2, m1.color = some h1 → m2.color = some h2 →
        m1.name = m2.name → h1 ≠ h2 →
        ∃ d1 ∈ (extractMaterials ms).1, ∃ d2 ∈ (extractMaterials ms).1,
          d1.color = "#" ++ h1 ∧ d2.color = "#" ++ h2 ∧ d1 ≠ d2) := by
  have hfst : (extractMaterials ms).1 = (keptMaterials [] ms).map toMaterialInfo :=
    extractAux_fst ms [] []
  have hcomplete : ∀ m ∈ ms, ∃ m2 ∈ keptMaterials [] ms,
      m2.name = m.name ∧ m2.color = m.color := by
    intro m hm
    obtain ⟨m2, hm2, hk2⟩ := keptMaterials_complete ms [] m hm (by simp)
    have hv2 : ValidColorOpt m2.color := hv m2 ((keptMaterials_sublist ms []).subset hm2)
    obtain ⟨hn, hc⟩ := matKey_inj m2 m hv2 (hv m hm) hk2
    exact ⟨m2, hm2, hn, hc⟩
  refine ⟨hfst, keptMaterials_sublist ms [], ?_, hcomplete,
    fun k => keptMaterials_find_eq ms [] k (by simp), ?_⟩
  · have hnd := List.pairwise_map.mp (keptMaterials_keys_nodup ms [])
    exact hnd.imp (fun hne hand => hne (matKey_congr hand.1 hand.2))
  · intro m1 hm1 m2 hm2 h1 h2 hc1 hc2 hn hne
    obtain ⟨k1, hk1, hkn1, hkc1⟩ := hcomplete m1 hm1
    obtain ⟨k2, hk2, hkn2, hkc2⟩ := hcomplete m2 hm2
    refine ⟨toMaterialInfo k1, ?_, toMaterialInfo k2, ?_, ?_, ?_, ?_⟩
    · rw [hfst]
      exact List.mem_map_of_mem _ hk1
    · rw [hfst]
      exact List.mem_map_of_mem _ hk2
    · simp [toMaterialInfo, hkc1, hc1]
    · simp [toMaterialInfo, hkc2, hc2]
    · intro hcon
      have hcol := congrArg MaterialInfo.color hcon
      simp [toMaterialInfo, hkc1, hc1, hkc2, hc2] at hcol
      exact hne (hash_append_inj (by rw [hcol]))

/-- Witness for C7: a scene with a repeated `(name, color)` pair and a
same-named second color. -/
theorem extractMaterials_dedup_ok_witness :
    ValidColors
        [⟨"wood", "MeshStandardMaterial", some "aa8844", some 0, some 1⟩,
         ⟨"wood", "MeshStandardMaterial", some "112233", some 0, some 1⟩,
         ⟨"wood", "MeshStandardMaterial", some "aa8844", some 0, some 1⟩]
    ∧ (extractMaterials
        [⟨"wood", "MeshStandardMaterial", some "aa8844", some 0, some 1⟩,
         ⟨"wood", "MeshStandardMaterial", some "112233", some 0, some 1⟩,
         ⟨"wood", "MeshStandardMaterial", some "aa8844", some 0, some 1⟩]).1
      = (keptMaterials []
        [⟨"wood", "MeshStandardMaterial", some "aa8844", some 0, some 1⟩,
         ⟨"wood", "MeshStandardMaterial", some "112233", some 0, some 1⟩,
         ⟨"wood", "MeshStandardMaterial", some "aa8844", some 0, some 1⟩]).map toMaterialInfo :=
  ⟨by decide,
    (extractMaterials_dedup_ok
      [⟨"wood", "MeshStandardMaterial", some "aa8844", some 0, some 1⟩,
       ⟨"wood", "MeshStandardMaterial", some "112233", some 0, some 1⟩,
       ⟨"wood", "MeshStandardMaterial", some "aa8844", some 0, some 1⟩] (by decide)).1⟩

/-- C8: the color palette is the traversal-order hex sequence with exact
black removed and duplicates dropped keeping first occurrences; hence it
is duplicate-free, never contains `#000000`, and is empty for a scene
whose only color is black. -/
theorem extractMaterials_palette_ok (ms : List SrcMaterial) :
    (extractMaterials ms).2
        = firstDedupAux [] ((colorHexes ms).filter (fun h => h != "#000000"))
    ∧ (extractMaterials ms).2.Nodup
    ∧ "#000000" ∉ (extractMaterials ms).2
    ∧ ((∀ h ∈ colorHexes ms, h = "#000000") → (extractMaterials ms).2 = []) := by
  have hsnd : (extractMaterials ms).2
      = firstDedupAux [] ((colorHexes ms).filter (fun h => h != "#000000")) :=
    extractAux_snd ms [] []
  refine ⟨hsnd, ?_, ?_, ?_⟩
  · rw [hsnd]; exact firstDedupAux_nodup _ _
  · rw [hsnd]
    intro hmem
    have hf := firstDedupAux_subset _ _ _ hmem
    have := List.of_mem_filter hf
    simp at this
  · intro hall
    rw [hsnd]
    have hnil : (colorHexes ms).filter (fun h => h != "#000000") = [] := by
      rw [List.filter_eq_nil_iff]
      intro a ha
      simp [hall a ha]
    rw [hnil]
    rfl

/-- Witness for C8: a scene whose only material color is exact black has
an empty palette. -/
theorem extractMaterials_palette_ok_witness :
    (∀ h ∈ colorHexes [⟨"ink", "MeshStandardMaterial", some "000000", some 0, some 1⟩],
        h = "#000000")
    ∧ (extractMaterials
        [⟨"ink", "MeshStandardMaterial", some "000000", some 0, some 1⟩]).2 = [] :=
  ⟨by decide,
    (extractMaterials_palette_ok
      [⟨"ink", "MeshStandardMaterial", some "000000", some 0, some 1⟩]).2.2.2 (by decide)⟩

/-- C10: the black exclusion applies only to the palette.  A material
colored exact black still yields a descriptor with `colorHex "#000000"`
in the materials list even though the palette never contains
`"#000000"`, and a material with no color yields a descriptor with the
`"#cccccc"` default. -/
theorem extractMaterials_black_kept (ms : List SrcMaterial) (hv : ValidColors ms) :
    (∀ m ∈ ms, m.color = some "000000" →
        ∃ d ∈ (extractMaterials ms).1, d.color = "#000000")
    ∧ "#000000" ∉ (extractMaterials ms).2
    ∧ (∀ m ∈ ms, m.color = none →
        ∃ d ∈ (extractMaterials ms).1,
          d.name = (if m.name = "" then "Unnamed" else m.name) ∧ d.color = "#cccccc") := by
  have hcomplete : ∀ m ∈ ms, ∃ m2 ∈ keptMaterials [] ms,
      m2.name = m.name ∧ m2.color = m.color := by
    intro m hm
    obtain ⟨m2, hm2, hk2⟩ := keptMaterials_complete ms [] m hm (by simp)
    have hv2 : ValidColorOpt m2.color := hv m2 ((keptMaterials_sublist ms []).subset hm2)
    obtain ⟨hn, hc⟩ := matKey_inj m2 m hv2 (hv m hm) hk2
    exact ⟨m2, hm2, hn, hc⟩
  have hfst : (extractMaterials ms).1 = (keptMaterials [] ms).map toMaterialInfo :=
    extractAux_fst ms [] []
  have hsnd : (extractMaterials ms).2
      = firstDedupAux [] ((colorHexes ms).filter (fun h => h != "#000000")) :=
    extractAux_snd ms [] []
  refine ⟨?_, ?_, ?_⟩
  · intro m hm hblack
    obtain ⟨m2, hm2, _, hc⟩ := hcomplete m hm
    refine ⟨toMaterialInfo m2, ?_, ?_⟩
    · rw [hfst]
      exact List.mem_map_of_mem _ hm2
    · simp [toMaterialInfo, hc, hblack]
  · rw [hsnd]
    intro hmem
    have hf := firstDedupAux_subset _ _ _ hmem
    have := List.of_mem_filter hf
    simp at this
  · intro m hm hnone
    obtain ⟨m2, hm2, hn, hc⟩ := hcomplete m hm
    refine ⟨toMaterialInfo m2, ?_, ?_, ?_⟩
    · rw [hfst]
      exact List.mem_map_of_mem _ hm2
    · simp [toMaterialInfo, hn]
    · simp [toMaterialInfo, hc, hnone]

/-- Witness for C10: one exact-black material and one colorless
material. -/
theorem extractMaterials_black_kept_witness :
    ValidColors
        [⟨"ink", "MeshStandardMaterial", some "000000", some 0, some 1⟩,
         ⟨"plain", "MeshBasicMaterial", none, none, none⟩]
    ∧ (∀ m ∈ ([⟨"ink", "MeshStandardMaterial", some "000000", some 0, some 1⟩,
          ⟨"plain", "MeshBasicMaterial", none, none, none⟩] : List SrcMaterial),
        m.color = some "000000" →
        ∃ d ∈ (extractMaterials
          [⟨"ink", "MeshStandardMaterial", some "000000", some 0, some 1⟩,
           ⟨"plain", "MeshBasicMaterial", none, none, none⟩]).1, d.color = "#000000") :=
  ⟨by decide,
    (extractMaterials_black_kept
      [⟨"ink", "MeshStandardMaterial", some "000000", some 0, some 1⟩,
       ⟨"plain", "MeshBasicMaterial", none, none, none⟩] (by decide)).1⟩

end Katalog
